import Mathlib

/-!
Verification development for the ai-studynotes-backend repository.

The two Lambda entry points (`api-function/index.js` with its
authentication-enabled variant, and `worker-function/index.js`) are
shallowly embedded below.  External collaborators (DynamoDB, SQS, SNS,
SSM, OpenAI, the clock and the UUID generator) are modelled by explicit
state and by oracle records whose boolean fields say whether each
external call succeeds; `Except` models thrown JavaScript exceptions.
Machine-level JSON and base64 (Buffer) operations are modelled over byte
lists (`List Nat`, each byte < 256).
-/

namespace StudyNotes

/-! ## JavaScript value helpers -/

/-- JS truthiness of an optional string value (`undefined`/`null`/`""` are falsy). -/
def jsTruthy : Option String → Bool
  | none => false
  | some s => s != ""

/-- JS `s.trim()`: strip leading and trailing whitespace. -/
def jsTrim (s : String) : String :=
  String.mk (((s.data.dropWhile Char.isWhitespace).reverse.dropWhile Char.isWhitespace).reverse)

/-- JS `p?.endsWith(suf)` on an optional string (undefined receiver yields falsy). -/
def jsEndsWith (p : Option String) (suf : String) : Bool :=
  match p with
  | none => false
  | some s => suf.data.isSuffixOf s.data

/-- Value of a digit list, as JS `Number` does for plain decimal strings. -/
def decDigitsVal (l : List Char) : Option Nat :=
  if l = [] then none
  else if l.all Char.isDigit then
    some (l.foldl (fun acc c => acc * 10 + (c.toNat - 48)) 0)
  else none

/-- Model of JS `Number(s)` restricted to optionally signed decimal integer
strings; `none` models `NaN`. -/
def jsNumber (s : String) : Option Int :=
  match s.data with
  | '-' :: rest => (decDigitsVal rest).map (fun n => -(n : Int))
  | '+' :: rest => (decDigitsVal rest).map (fun n => (n : Int))
  | l => (decDigitsVal l).map (fun n => (n : Int))

/-! ## Task records and the DynamoDB table model

A stored item is a partial record: `UpdateCommand` can create items that
carry only the updated attributes, so every attribute is optional.
`error` distinguishes an absent attribute (`none`), a stored JSON `null`
(`some none`) and a stored string (`some (some s)`). -/

structure TaskRec where
  pk : Option String := none
  topic : Option String := none
  status : Option String := none
  createdAt : Option String := none
  updatedAt : Option String := none
  researchMd : Option String := none
  error : Option (Option String) := none
  deriving DecidableEq, Repr

/-- The DynamoDB table: items keyed by `id`. -/
abbrev Store := List (String × TaskRec)

/-- `GetItem` on the table. -/
def findTask : Store → String → Option TaskRec
  | [], _ => none
  | e :: rest, id => if e.1 = id then some e.2 else findTask rest id

/-- `UpdateCommand` semantics: update the item if present, otherwise create
it from an empty record (DynamoDB `SET`/`REMOVE` upserts). -/
def upsertTask : Store → String → (TaskRec → TaskRec) → Store
  | [], id, f => [(id, f {})]
  | e :: rest, id, f => if e.1 = id then (e.1, f e.2) :: rest else e :: upsertTask rest id f

/-- Status projection of a stored item. -/
def taskStatus (st : Store) (id : String) : Option String :=
  (findTask st id).bind (·.status)

/-! ## Bytes, base64 and the JSON continuation-key codec

`GET /tasks` encodes DynamoDB's `LastEvaluatedKey` as
`Buffer.from(JSON.stringify(key)).toString("base64")` and decodes an
incoming cursor with `JSON.parse(Buffer.from(cursor, "base64").toString("utf8"))`.
Both are modelled at the UTF-8 byte level. -/

/-- A byte string (each entry is meant to be < 256). -/
abbrev ByteStr := List Nat

/-- A flat JSON object of string fields — the shape of the document client's
`LastEvaluatedKey` for this table (`pk`, `createdAt`, `id`). -/
abbrev JKey := List (ByteStr × ByteStr)

/-- Well-formedness: every entry is a byte. -/
def BWF (l : ByteStr) : Prop := ∀ b ∈ l, b < 256

instance : DecidablePred BWF := fun l => List.decidableBAll _ l

/-- Well-formedness of a continuation key. -/
def KeyWF (k : JKey) : Prop := ∀ kv ∈ k, BWF kv.1 ∧ BWF kv.2

instance : DecidablePred KeyWF := fun k => List.decidableBAll _ k

/-- UTF-8 bytes of a string. -/
def utf8Bytes (s : String) : ByteStr := s.toUTF8.toList.map (·.toNat)

/-- Lowercase hex digit byte, as `JSON.stringify` emits in `\u00XX` escapes. -/
def hexDigitByte (n : Nat) : Nat := if n < 10 then 48 + n else 87 + n

/-- Value of a hex digit byte. -/
def hexVal (c : Nat) : Option Nat :=
  if 48 ≤ c ∧ c ≤ 57 then some (c - 48)
  else if 97 ≤ c ∧ c ≤ 102 then some (c - 97 + 10)
  else if 65 ≤ c ∧ c ≤ 70 then some (c - 65 + 10)
  else none

/-- `JSON.stringify` escaping of one byte inside a string literal. -/
def escByte (b : Nat) : List Nat :=
  if b = 34 then [92, 34]
  else if b = 92 then [92, 92]
  else if b = 8 then [92, 98]
  else if b = 9 then [92, 116]
  else if b = 10 then [92, 110]
  else if b = 12 then [92, 102]
  else if b = 13 then [92, 114]
  else if b < 32 then [92, 117, 48, 48, hexDigitByte (b / 16), hexDigitByte (b % 16)]
  else [b]

/-- `JSON.stringify` escaping of a byte string. -/
def escBytes : List Nat → List Nat
  | [] => []
  | b :: rest => escByte b ++ escBytes rest

/-- One `"key":"value"` member of the serialized continuation key. -/
def strJPair (kv : ByteStr × ByteStr) : List Nat :=
  34 :: (escBytes kv.1 ++ (34 :: 58 :: 34 :: (escBytes kv.2 ++ [34])))

/-- Comma-joined members. -/
def strFields : JKey → List Nat
  | [] => []
  | [kv] => strJPair kv
  | kv :: rest => strJPair kv ++ (44 :: strFields rest)

/-- `JSON.stringify` of a continuation key. -/
def stringifyKey (k : JKey) : List Nat := 123 :: (strFields k ++ [125])

/-- JSON string-literal body parser (opening quote already consumed);
returns the decoded bytes and the remaining input. -/
def parseJStr : List Nat → Option (List Nat × List Nat)
  | [] => none
  | b :: rest =>
    if b = 34 then some ([], rest)
    else if b = 92 then
      match rest with
      | [] => none
      | e :: r2 =>
        if e = 34 then (parseJStr r2).map (fun p => (34 :: p.1, p.2))
        else if e = 92 then (parseJStr r2).map (fun p => (92 :: p.1, p.2))
        else if e = 98 then (parseJStr r2).map (fun p => (8 :: p.1, p.2))
        else if e = 116 then (parseJStr r2).map (fun p => (9 :: p.1, p.2))
        else if e = 110 then (parseJStr r2).map (fun p => (10 :: p.1, p.2))
        else if e = 102 then (parseJStr r2).map (fun p => (12 :: p.1, p.2))
        else if e = 114 then (parseJStr r2).map (fun p => (13 :: p.1, p.2))
        else if e = 117 then
          match r2 with
          | h1 :: h2 :: h3 :: h4 :: r3 =>
            match hexVal h1, hexVal h2, hexVal h3, hexVal h4 with
            | some x1, some x2, some x3, some x4 =>
              (parseJStr r3).map
                (fun p => ((((x1 * 16 + x2) * 16 + x3) * 16 + x4) :: p.1, p.2))
            | _, _, _, _ => none
          | _ => none
        else none
    else (parseJStr rest).map (fun p => (b :: p.1, p.2))
termination_by structural l => l

/-- Member-list parser for an object of string fields (fuel-indexed). -/
def parseFields : Nat → List Nat → Option (JKey × List Nat)
  | 0, _ => none
  | fuel + 1, 34 :: rest =>
    match parseJStr rest with
    | none => none
    | some (k, r1) =>
      match r1 with
      | 58 :: 34 :: r2 =>
        match parseJStr r2 with
        | none => none
        | some (v, r3) =>
          match r3 with
          | 44 :: r4 =>
            match parseFields fuel r4 with
            | none => none
            | some (ps, r5) => some ((k, v) :: ps, r5)
          | 125 :: r4 => some ([(k, v)], r4)
          | _ => none
      | _ => none
  | _ + 1, _ => none

/-- `JSON.parse` restricted to a flat object of string fields, requiring the
whole input to be consumed. -/
def parseKeyBytes (l : List Nat) : Option JKey :=
  match l with
  | 123 :: rest =>
    if rest = [125] then some []
    else
      match parseFields rest.length rest with
      | some (ps, []) => some ps
      | _ => none
  | _ => none

/-- Base64 alphabet: sextet to character byte. -/
def b64c (n : Nat) : Nat :=
  if n < 26 then 65 + n
  else if n < 52 then 97 + (n - 26)
  else if n < 62 then 48 + (n - 52)
  else if n = 62 then 43 else 47

/-- Base64 alphabet: character byte to sextet. -/
def b64dc (c : Nat) : Option Nat :=
  if 65 ≤ c ∧ c ≤ 90 then some (c - 65)
  else if 97 ≤ c ∧ c ≤ 122 then some (c - 97 + 26)
  else if 48 ≤ c ∧ c ≤ 57 then some (c - 48 + 52)
  else if c = 43 then some 62
  else if c = 47 then some 63
  else none

/-- `Buffer.toString("base64")`: standard padded base64 of a byte list. -/
def b64encode : List Nat → List Nat
  | [] => []
  | [a] => [b64c (a / 4), b64c (a % 4 * 16), 61, 61]
  | [a, b] => [b64c (a / 4), b64c (a % 4 * 16 + b / 16), b64c (b % 16 * 4), 61]
  | a :: b :: c :: rest =>
    b64c (a / 4) :: b64c (a % 4 * 16 + b / 16) :: b64c (b % 16 * 4 + c / 64) :: b64c (c % 64)
      :: b64encode rest

/-- `Buffer.from(s, "base64")`: decoder for padded base64. -/
def b64decode : List Nat → Option (List Nat)
  | [] => some []
  | w :: x :: y :: z :: rest =>
    match b64dc w, b64dc x with
    | some sw, some sx =>
      if y = 61 then
        if z = 61 ∧ rest = [] then some [sw * 4 + sx / 16] else none
      else
        match b64dc y with
        | some sy =>
          if z = 61 then
            if rest = [] then some [sw * 4 + sx / 16, sx % 16 * 16 + sy / 4] else none
          else
            match b64dc z with
            | some sz =>
              (b64decode rest).map
                (fun bs => (sw * 4 + sx / 16) :: (sx % 16 * 16 + sy / 4) :: (sy % 4 * 64 + sz) :: bs)
            | none => none
        | none => none
    | _, _ => none
  | _ => none

/-- The cursor the list route returns for a continuation key
(`Buffer.from(JSON.stringify(key)).toString("base64")`). -/
def encodeCursor (k : JKey) : List Nat := b64encode (stringifyKey k)

/-- Decoding of an incoming cursor
(`JSON.parse(Buffer.from(cursor, "base64").toString("utf8"))`);
`none` models the thrown parse exception. -/
def decodeCursor (c : List Nat) : Option JKey :=
  (b64decode c).bind parseKeyBytes

/-- `out.LastEvaluatedKey ? base64(JSON.stringify(...)) : null`. -/
def lekToCursor (l : Option JKey) : Option (List Nat) := l.map encodeCursor

/-! ## The list query (`QueryCommand` on the `byCreatedAt` GSI) -/

/-- Projected item shape of the list route
(`ProjectionExpression: "id, topic, #s, createdAt, updatedAt"`). -/
structure ListItem where
  id : Option String
  topic : Option String
  status : Option String
  createdAt : Option String
  updatedAt : Option String
  deriving DecidableEq, Repr

/-- Projection applied by the query. -/
def projectItem (e : String × TaskRec) : ListItem :=
  { id := some e.1, topic := e.2.topic, status := e.2.status,
    createdAt := e.2.createdAt, updatedAt := e.2.updatedAt }

/-- Index key of an item in the `byCreatedAt` GSI. -/
def taskKey (e : String × TaskRec) : JKey :=
  [(utf8Bytes "pk", utf8Bytes "TASK"),
   (utf8Bytes "createdAt", utf8Bytes (e.2.createdAt.getD "")),
   (utf8Bytes "id", utf8Bytes e.1)]

/-- Insert into a list kept in descending `createdAt` order. -/
def insertDesc (e : String × TaskRec) : List (String × TaskRec) → List (String × TaskRec)
  | [] => [e]
  | f :: rest =>
    if (f.2.createdAt.getD "") ≤ (e.2.createdAt.getD "") then e :: f :: rest
    else f :: insertDesc e rest

/-- Sort newest-created-first (`ScanIndexForward: false`). -/
def sortDesc : List (String × TaskRec) → List (String × TaskRec)
  | [] => []
  | e :: rest => insertDesc e (sortDesc rest)

/-- Model of the GSI query: items with `pk = "TASK"` and a `createdAt`
attribute, newest first, starting strictly after `sk`, at most `lim` items;
the second component models `LastEvaluatedKey`. -/
def storeQuery (st : Store) (lim : Nat) (sk : Option JKey) :
    List ListItem × Option JKey :=
  let eligible := st.filter (fun e => e.2.pk == some "TASK" && e.2.createdAt.isSome)
  let ordered := sortDesc eligible
  let after :=
    match sk with
    | none => ordered
    | some k =>
      match ordered.dropWhile (fun e => taskKey e != k) with
      | [] => []
      | _ :: t => t
  let page := after.take lim
  let lek := if lim < after.length then page.getLast?.map taskKey else none
  (page.map projectItem, lek)

/-! ## Identity extraction (`getAuthenticatedUser` in the auth-enabled API) -/

/-- Claims of a decoded JWT payload used by the extractor. -/
structure JwtPayload where
  exp : Option Int := none
  iss : Option String := none
  aud : Option String := none
  token_use : Option String := none
  sub : Option String := none
  email : Option String := none
  cognitoUsername : Option String := none
  cognitoUserStatus : Option String := none
  deriving DecidableEq, Repr

/-- `isTokenExpired`: `if (!payload.exp) return true; return payload.exp < now;`
(`exp = 0` is falsy in JS, hence treated as absent). -/
def isTokenExpired (p : JwtPayload) (nowSec : Int) : Bool :=
  match p.exp with
  | none => true
  | some e => if e = 0 then true else decide (e < nowSec)

/-- `authHeader.replace(/^Bearer\s+/i, "")`. -/
def stripBearer (s : String) : String :=
  match s.data with
  | b :: e :: a :: r :: e2 :: r2 :: c :: rest =>
    if b.toLower == 'b' && e.toLower == 'e' && a.toLower == 'a' && r.toLower == 'r'
        && e2.toLower == 'e' && r2.toLower == 'r' && c.isWhitespace then
      String.mk ((c :: rest).dropWhile Char.isWhitespace)
    else s
  | _ => s

/-- Expected issuer URL derived from the configured user-pool id
(`https://cognito-idp.${userPoolId.split('_')[0]}.amazonaws.com/${userPoolId}`). -/
def issuerUrl (userPoolId : String) : String :=
  "https://cognito-idp." ++ String.mk (userPoolId.data.takeWhile (fun c => c != '_'))
    ++ ".amazonaws.com/" ++ userPoolId

/-- The identity record the extractor produces. -/
structure AuthUser where
  id : Option String
  email : Option String
  username : Option String
  userStatus : Option String
  payload : JwtPayload
  deriving DecidableEq, Repr

/-- Loaded SSM configuration of the API function. -/
structure ApiConfig where
  tableName : Option String := none
  queueUrl : Option String := none
  userPool : Option String := none
  clientId : Option String := none
  deriving Repr

/-- `getAuthenticatedUser(event, config)`.  The base64url + `JSON.parse`
decoding of the token's middle segment (`parseJWT`) is passed in as
`decodeTok`, modelling the platform decoding of an opaque token;
`Except.error` models the thrown exception, which the extractor catches. -/
def getAuthenticatedUser (cfg : ApiConfig) (authHeader : Option String)
    (decodeTok : String → Except String JwtPayload) (nowSec : Int) : Option AuthUser :=
  if !(jsTruthy cfg.userPool && jsTruthy cfg.clientId) then none
  else
    match authHeader with
    | none => none
    | some h =>
      let token := stripBearer h
      if token = "" then none
      else
        match decodeTok token with
        | .error _ => none
        | .ok p =>
          if isTokenExpired p nowSec then none
          else if p.iss != some (issuerUrl (cfg.userPool.getD "")) then none
          else if p.aud != some (cfg.clientId.getD "") then none
          else if p.token_use != some "id" then none
          else some { id := p.sub, email := p.email, username := p.cognitoUsername,
                      userStatus := p.cognitoUserStatus, payload := p }

/-! ## The API handler -/

/-- JSON body shapes the handler returns. -/
inductive RespBody where
  | empty
  | msg (m : String)
  | msgErr (m : String) (e : Option String)
  | created (id topic statusV createdAt : String)
  | listing (items : List ListItem) (cursor : Option (List Nat))
  | taskFull (id : String) (rec : TaskRec)
  deriving DecidableEq, Repr

/-- An HTTP response of the handler. -/
structure ApiResponse where
  statusCode : Nat
  headers : List (String × Option String)
  body : RespBody
  deriving DecidableEq, Repr

/-- The permissive CORS headers attached to every response. -/
def corsHeaders : List (String × Option String) :=
  [("Access-Control-Allow-Origin", some "*"),
   ("Access-Control-Allow-Headers",
    some "Content-Type,X-Amz-Date,Authorization,X-Api-Key,X-Amz-Security-Token"),
   ("Access-Control-Allow-Methods", some "OPTIONS,GET,POST,DELETE")]

/-- `res(statusCode, data, additionalHeaders)`. -/
def mkRes (code : Nat) (b : RespBody) (extra : List (String × Option String)) : ApiResponse :=
  { statusCode := code, headers := corsHeaders ++ extra, body := b }

/-- `user ? { "X-User-ID": user.id } : {}`. -/
def uHeaders : Option AuthUser → List (String × Option String)
  | none => []
  | some u => [("X-User-ID", u.id)]

/-- Work item published to SQS on create. -/
structure SqsPayload where
  id : String
  topic : String
  requestedAt : String
  taskType : String
  deriving DecidableEq, Repr

/-- Query-string parameters of the list route. -/
structure QSParams where
  limit : Option String := none
  cursor : Option (List Nat) := none
  deriving DecidableEq, Repr

/-- An API Gateway event, with `parsedBody` the outcome of the handler's
`JSON.parse` of the request body (`.error` = invalid JSON, the payload is
the body's `topic` field). -/
structure ApiEvent where
  httpMethod : String
  path : Option String := none
  resource : Option String := none
  authHeader : Option String := none
  parsedBody : Except Unit (Option String) := .ok none
  qs : Option QSParams := none
  pathId : Option String := none

/-- Outcomes of the external calls an API invocation makes: the SSM config
load, the token decoding, the clock, the UUID generator, and whether the
DynamoDB put / SQS send succeed (failure models a thrown dependency error). -/
structure ApiOracle where
  cfgResult : Except String ApiConfig
  decodeTok : String → Except String JwtPayload := fun _ => .error "no token"
  nowSec : Int := 0
  freshId : String := "id-1"
  nowIso : String := "t0"
  putDepOk : Bool := true
  putErrMsg : String := "put failed"
  sqsOk : Bool := true
  sqsErrMsg : String := "sqs failed"
  condErrMsg : String := "The conditional request failed"

/-- `Math.min(Number(qs.limit || 25), 100)`; `none` models `NaN`. -/
def usedLimit (q : Option String) : Option Int :=
  match q with
  | none => some 25
  | some s => if s = "" then some 25 else (jsNumber s).map (fun n => min n 100)

/-- The routing body of the handler, after config load and identity
extraction; `uh` is the advisory user header list. -/
def apiRoutesH (ev : ApiEvent) (o : ApiOracle) (st : Store) (cfg : ApiConfig)
    (uh : List (String × Option String)) : ApiResponse × Store × List SqsPayload :=
  if !jsTruthy cfg.tableName then
    (mkRes 500 (.msg "dynamo-db-table-name not set") [], st, [])
  else if ev.httpMethod == "POST" && jsEndsWith ev.path "/tasks" then
    match ev.parsedBody with
    | .error _ => (mkRes 400 (.msg "Invalid JSON") [], st, [])
    | .ok tf =>
      let topic := jsTrim (tf.getD "")
      if topic = "" then (mkRes 422 (.msg "Field \x27topic\x27 is required") [], st, [])
      else if (findTask st o.freshId).isSome then
        (mkRes 500 (.msgErr "Server error" (some o.condErrMsg)) [], st, [])
      else if !o.putDepOk then
        (mkRes 500 (.msgErr "Server error" (some o.putErrMsg)) [], st, [])
      else
        let item : TaskRec :=
          { pk := some "TASK", topic := some topic, status := some "QUEUED",
            createdAt := some o.nowIso, updatedAt := some o.nowIso,
            researchMd := some "", error := some none }
        let st2 := st ++ [(o.freshId, item)]
        if jsTruthy cfg.queueUrl then
          if o.sqsOk then
            (mkRes 201 (.created o.freshId topic "QUEUED" o.nowIso) uh, st2,
             [{ id := o.freshId, topic := topic, requestedAt := o.nowIso,
                taskType := "RESEARCH_SUMMARY_V1" }])
          else (mkRes 500 (.msgErr "Server error" (some o.sqsErrMsg)) [], st2, [])
        else (mkRes 201 (.created o.freshId topic "QUEUED" o.nowIso) uh, st2, [])
  else if ev.httpMethod == "GET" && jsEndsWith ev.path "/tasks"
      && ev.resource != some "/tasks/{id}" then
    let q := ev.qs.getD {}
    let skR : Option (Option JKey) :=
      match q.cursor with
      | none => some none
      | some cb => (decodeCursor cb).map some
    match skR with
    | none => (mkRes 500 (.msgErr "Server error" (some "cursor parse failed")) [], st, [])
    | some sk =>
      match usedLimit q.limit with
      | none => (mkRes 500 (.msgErr "Server error" (some "limit invalid")) [], st, [])
      | some n =>
        if n < 1 then (mkRes 500 (.msgErr "Server error" (some "limit invalid")) [], st, [])
        else
          let r := storeQuery st n.toNat sk
          (mkRes 200 (.listing r.1 (lekToCursor r.2)) uh, st, [])
  else if ev.httpMethod == "GET" && ev.resource == some "/tasks/{id}" then
    if !jsTruthy ev.pathId then (mkRes 400 (.msg "Missing path param \x27id\x27") [], st, [])
    else
      match findTask st (ev.pathId.getD "") with
      | none => (mkRes 404 (.msg "Not Found") [], st, [])
      | some r => (mkRes 200 (.taskFull (ev.pathId.getD "") r) uh, st, [])
  else if ev.httpMethod == "DELETE" && ev.resource == some "/tasks/{id}" then
    if !jsTruthy ev.pathId then (mkRes 400 (.msg "Missing path param \x27id\x27") [], st, [])
    else (mkRes 204 .empty uh, st.filter (fun e => e.1 != ev.pathId.getD ""), [])
  else (mkRes 404 (.msg "Not Found") [], st, [])

/-- The API Lambda handler: OPTIONS preflight, config load, identity
extraction, then routing.  Returns the response, the table state after the
call, and the list of work items actually published to SQS. -/
def apiHandler (ev : ApiEvent) (o : ApiOracle) (st : Store) :
    ApiResponse × Store × List SqsPayload :=
  if ev.httpMethod == "OPTIONS" then
    ({ statusCode := 200, headers := corsHeaders, body := .empty }, st, [])
  else
    match o.cfgResult with
    | .error e => (mkRes 500 (.msgErr "Server error" (some e)) [], st, [])
    | .ok cfg =>
      let user := getAuthenticatedUser cfg ev.authHeader o.decodeTok o.nowSec
      apiRoutesH ev o st cfg (uHeaders user)

/-! ## The worker handler -/

/-- Loaded SSM configuration of the worker. -/
structure WorkerCfg where
  tableName : String
  snsArn : Option String := none
  apiKey : String := ""
  promptId : String := ""
  deriving Repr

/-- Parsed body of a queue message (`{id, topic}`; either may be absent). -/
structure WMsg where
  id : Option String := none
  topic : Option String := none
  deriving DecidableEq, Repr

/-- One SQS record; `parsed` is the outcome of `JSON.parse(rec.body)`
(the same outcome in the try block and in the catch block). -/
structure SqsRec where
  messageId : String
  parsed : Except String WMsg

/-- Outcomes of the external calls made while processing one record:
the two status writes, the OpenAI call (`.ok` carries the non-empty
markdown), the SNS publish and the compensating ERROR write, plus the
clock readings and dependency error messages. -/
structure RecOracle where
  procWriteOk : Bool := true
  procErrMsg : String := "proc write failed"
  genResult : Except String String := .error "OpenAI error"
  doneWriteOk : Bool := true
  doneErrMsg : String := "done write failed"
  snsOk : Bool := true
  snsErrMsg : String := "sns publish failed"
  errWriteOk : Bool := true
  tProc : String := "t1"
  tDone : String := "t2"
  tErr : String := "t3"

/-- A DynamoDB write the worker issues. -/
inductive WriteOp where
  | setProcessing (id t : String)
  | setDone (id md t : String)
  | setError (id msg t : String)
  deriving DecidableEq, Repr

/-- Effect of one write on the table (`UpdateCommand` upserts; the DONE
write `REMOVE`s the `error` attribute). -/
def applyWrite (st : Store) (w : WriteOp) : Store :=
  match w with
  | .setProcessing id t =>
    upsertTask st id (fun r => { r with status := some "PROCESSING", updatedAt := some t })
  | .setDone id md t =>
    upsertTask st id
      (fun r => { r with researchMd := some md, status := some "DONE", updatedAt := some t, error := none })
  | .setError id msg t =>
    upsertTask st id
      (fun r => { r with error := some (some msg), status := some "ERROR", updatedAt := some t })

/-- Sequential effect of a write list. -/
def applyWrites (st : Store) (ws : List WriteOp) : Store := ws.foldl applyWrite st

/-- The catch-block compensation: re-parse the body and, if an `id` could be
recovered, best-effort write `status = ERROR` (a failing write is only
logged). -/
def compWrites (m : WMsg) (msg : String) (o : RecOracle) : List WriteOp :=
  if jsTruthy m.id then
    if o.errWriteOk then [.setError (m.id.getD "") msg o.tErr] else []
  else []

/-- Per-record protocol of the worker: parse, guard `id`/`topic`, write
PROCESSING, call OpenAI, write DONE, optionally publish to SNS; any thrown
error lands in the catch block, which records the item as failed and runs
the compensation.  Returns the writes issued and whether the record is
reported in `batchItemFailures`. -/
def processRecord (cfg : WorkerCfg) (rec : SqsRec) (o : RecOracle) : List WriteOp × Bool :=
  match rec.parsed with
  | .error _ => ([], true)
  | .ok m =>
    if !(jsTruthy m.id && jsTruthy m.topic) then
      (compWrites m "Message must contain id and topic" o, true)
    else
      let id := m.id.getD ""
      if !o.procWriteOk then (compWrites m o.procErrMsg o, true)
      else
        match o.genResult with
        | .error e => ([.setProcessing id o.tProc] ++ compWrites m e o, true)
        | .ok md =>
          if !o.doneWriteOk then
            ([.setProcessing id o.tProc] ++ compWrites m o.doneErrMsg o, true)
          else if jsTruthy cfg.snsArn && !o.snsOk then
            ([.setProcessing id o.tProc, .setDone id md o.tDone]
              ++ compWrites m o.snsErrMsg o, true)
          else ([.setProcessing id o.tProc, .setDone id md o.tDone], false)

/-- The worker Lambda handler over a batch: a failed config load marks every
record as failed; otherwise records are processed in order and the failed
ones are collected into the batch failure report. -/
def workerHandler (cfgR : Except String WorkerCfg) (recs : List (SqsRec × RecOracle)) :
    List WriteOp × List String :=
  match cfgR with
  | .error _ => ([], recs.map (fun p => p.1.messageId))
  | .ok cfg =>
    recs.foldl
      (fun acc p =>
        let r := processRecord cfg p.1 p.2
        (acc.1 ++ r.1, acc.2 ++ (if r.2 then [p.1.messageId] else [])))
      ([], [])

/-- Items of a listing response (empty for every other body). -/
def respItems : RespBody → List ListItem
  | .listing items _ => items
  | _ => []

/-- Response headers with the advisory `X-User-ID` header removed. -/
def stripUid (hs : List (String × Option String)) : List (String × Option String) :=
  hs.filter (fun p => p.1 != "X-User-ID")

/-! ## Store lemmas -/

theorem findTask_append (st l : Store) (id : String) :
    findTask (st ++ l) id =
      match findTask st id with
      | some r => some r
      | none => findTask l id := by
  induction st with
  | nil => simp [findTask]
  | cons e rest ih =>
    by_cases h : e.1 = id
    · simp [findTask, h]
    · simp [findTask, h, ih]

theorem findTask_filter_ne (st : Store) (x : String) :
    findTask (st.filter (fun e => e.1 != x)) x = none := by
  induction st with
  | nil => rfl
  | cons e rest ih =>
    by_cases h : e.1 = x
    · simpa [List.filter_cons, h] using ih
    · simpa [List.filter_cons, h, findTask] using ih

theorem findTask_filter_other (st : Store) (x id : String) (hne : id ≠ x) :
    findTask (st.filter (fun e => e.1 != x)) id = findTask st id := by
  induction st with
  | nil => rfl
  | cons e rest ih =>
    by_cases hx : e.1 = x
    · simp [List.filter_cons, hx, findTask, Ne.symm hne, ih]
    · simp [List.filter_cons, hx, findTask, ih]

theorem findTask_upsert_self (st : Store) (id : String) (f : TaskRec → TaskRec) :
    findTask (upsertTask st id f) id = some (f ((findTask st id).getD {})) := by
  induction st with
  | nil => simp [upsertTask, findTask]
  | cons e rest ih =>
    by_cases h : e.1 = id
    · simp [upsertTask, findTask, h]
    · simp [upsertTask, findTask, h, ih]

theorem findTask_upsert_ne (st : Store) (id id' : String) (f : TaskRec → TaskRec)
    (h : id' ≠ id) :
    findTask (upsertTask st id f) id' = findTask st id' := by
  induction st with
  | nil => simp [upsertTask, findTask, Ne.symm h]
  | cons e rest ih =>
    by_cases he : e.1 = id
    · simp [upsertTask, findTask, he, Ne.symm h]
    · simp [upsertTask, findTask, he, ih]

/-- No worker write ever sets a status to `QUEUED`: a task whose status reads
`QUEUED` after one write already read `QUEUED` before it. -/
theorem status_applyWrite (st : Store) (w : WriteOp) (id : String)
    (h : taskStatus (applyWrite st w) id = some "QUEUED") :
    taskStatus st id = some "QUEUED" := by
  cases w with
  | setProcessing tid t =>
    by_cases he : id = tid
    · subst he
      simp [applyWrite, taskStatus, findTask_upsert_self] at h
    · simpa [applyWrite, taskStatus, findTask_upsert_ne _ _ _ _ he] using h
  | setDone tid md t =>
    by_cases he : id = tid
    · subst he
      simp [applyWrite, taskStatus, findTask_upsert_self] at h
    · simpa [applyWrite, taskStatus, findTask_upsert_ne _ _ _ _ he] using h
  | setError tid msg t =>
    by_cases he : id = tid
    · subst he
      simp [applyWrite, taskStatus, findTask_upsert_self] at h
    · simpa [applyWrite, taskStatus, findTask_upsert_ne _ _ _ _ he] using h

theorem status_applyWrites (ws : List WriteOp) (st : Store) (id : String)
    (h : taskStatus (applyWrites st ws) id = some "QUEUED") :
    taskStatus st id = some "QUEUED" := by
  induction ws generalizing st with
  | nil => simpa [applyWrites] using h
  | cons w rest ih =>
    have h' : taskStatus (applyWrites (applyWrite st w) rest) id = some "QUEUED" := by
      simpa [applyWrites] using h
    exact status_applyWrite st w id (ih (applyWrite st w) h')

theorem taskStatus_setError (st : Store) (id msg t : String) :
    taskStatus (applyWrite st (.setError id msg t)) id = some "ERROR" := by
  simp [applyWrite, taskStatus, findTask_upsert_self]

/-- The store after one API invocation is the old store, the old store plus a
freshly created `QUEUED` task under an id that was absent, or the old store
with one id's items deleted. -/
theorem apiRoutesH_store (ev : ApiEvent) (o : ApiOracle) (st : Store) (cfg : ApiConfig)
    (uh : List (String × Option String)) :
    (apiRoutesH ev o st cfg uh).2.1 = st
    ∨ (∃ r : TaskRec, r.status = some "QUEUED" ∧ findTask st o.freshId = none
        ∧ (apiRoutesH ev o st cfg uh).2.1 = st ++ [(o.freshId, r)])
    ∨ (apiRoutesH ev o st cfg uh).2.1 = st.filter (fun e => e.1 != ev.pathId.getD "") := by
  simp only [apiRoutesH]
  repeat' split
  all_goals
    first
      | (left; rfl)
      | (right; right; rfl)
      | (right; left
         refine ⟨_, rfl, ?_, rfl⟩
         cases hf : findTask st o.freshId
         · rfl
         · simp_all)

/-- Worker batch: C2, C3, C4 use `processRecord`/`workerHandler` fixtures. -/
def wcfg0 : WorkerCfg := { tableName := "T", snsArn := some "arn", apiKey := "k", promptId := "p" }

def wrec0 : SqsRec := { messageId := "m1", parsed := .ok { id := some "a", topic := some "t" } }

def worc0 : RecOracle := { genResult := .ok "md", snsOk := false }

def wst0 : Store :=
  [("a", { pk := some "TASK", topic := some "t", status := some "QUEUED", createdAt := some "c",
           updatedAt := some "c", researchMd := some "", error := some none })]

/-- C2 counterexample: a work item whose DONE write succeeded but whose SNS
publish failed IS added to the batch failure report, and the compensation
path overwrites the stored `DONE` status with `ERROR` — refuting the claim
that the item is not reported and the status remains `DONE`. -/
theorem c2_counterexample :
    (workerHandler (.ok wcfg0) [(wrec0, worc0)]).2 = ["m1"]
    ∧ taskStatus (applyWrites wst0 (workerHandler (.ok wcfg0) [(wrec0, worc0)]).1) "a"
        = some "ERROR" :=
  ⟨rfl, rfl⟩

/-- C2 (amended): after a successful DONE write, a failure of the SNS
notification publish IS treated as item failure — the record lands in the
batch failure report and the compensating write (when it succeeds) moves the
task's stored status from `DONE` to `ERROR`. -/
theorem c2_sns_failure_is_item_failure (cfg : WorkerCfg) (r : SqsRec) (o : RecOracle)
    (m : WMsg) (st : Store) (md : String)
    (hp : r.parsed = .ok m) (hid : jsTruthy m.id = true) (ht : jsTruthy m.topic = true)
    (hproc : o.procWriteOk = true) (hgen : o.genResult = .ok md) (hdone : o.doneWriteOk = true)
    (hsns : jsTruthy cfg.snsArn = true) (hsnsFail : o.snsOk = false)
    (herr : o.errWriteOk = true) :
    (processRecord cfg r o).2 = true
    ∧ taskStatus (applyWrites st (processRecord cfg r o).1) (m.id.getD "") = some "ERROR" := by
  have hw : processRecord cfg r o
      = ([.setProcessing (m.id.getD "") o.tProc, .setDone (m.id.getD "") md o.tDone,
          .setError (m.id.getD "") o.snsErrMsg o.tErr], true) := by
    simp [processRecord, hp, hid, ht, hproc, hgen, hdone, hsns, hsnsFail, compWrites, herr]
  rw [hw]
  exact ⟨rfl, by simpa [applyWrites] using
    taskStatus_setError (applyWrite (applyWrite st _) _) (m.id.getD "") o.snsErrMsg o.tErr⟩

/-- C2 witness: the amended SNS-failure behaviour at a concrete record. -/
theorem c2_sns_failure_is_item_failure_witness :
    (processRecord wcfg0 wrec0 worc0).2 = true
    ∧ taskStatus (applyWrites wst0 (processRecord wcfg0 wrec0 worc0).1) "a" = some "ERROR" :=
  c2_sns_failure_is_item_failure wcfg0 wrec0 worc0 { id := some "a", topic := some "t" } wst0
    "md" rfl rfl rfl rfl rfl rfl rfl rfl rfl

/-- C3 counterexample: within the processing of one record whose SNS publish
fails, the task's stored status moves `QUEUED → PROCESSING → DONE → ERROR`:
a write changes the status out of `DONE`, refuting the claimed monotonic
state machine with terminal `DONE`. -/
theorem c3_counterexample :
    taskStatus ((List.scanl applyWrite wst0 (processRecord wcfg0 wrec0 worc0).1).getD 2 []) "a"
        = some "DONE"
    ∧ taskStatus ((List.scanl applyWrite wst0 (processRecord wcfg0 wrec0 worc0).1).getD 3 []) "a"
        = some "ERROR" :=
  ⟨rfl, rfl⟩

/-- C3 (amended): the `QUEUED` half of the claim holds — no worker write and
no API invocation ever returns a stored task's status to `QUEUED` (the only
`QUEUED` write is the conditional create of an id that was absent) — but
`DONE` is not preserved by every write (see the counterexample). -/
theorem c3_no_requeue :
    (∀ (st : Store) (ws : List WriteOp) (id : String),
        taskStatus (applyWrites st ws) id = some "QUEUED" → taskStatus st id = some "QUEUED")
    ∧ (∀ (ev : ApiEvent) (o : ApiOracle) (st : Store) (id : String),
        taskStatus (apiHandler ev o st).2.1 id = some "QUEUED" →
          taskStatus st id = some "QUEUED" ∨ findTask st id = none) := by
  constructor
  · exact fun st ws id h => status_applyWrites ws st id h
  · intro ev o st id h
    by_cases hopt : (ev.httpMethod == "OPTIONS") = true
    · left; simpa [apiHandler, hopt] using h
    · rcases hc : o.cfgResult with ec | cfg
      · left; simpa [apiHandler, hopt, hc] using h
      · have h' : taskStatus
            (apiRoutesH ev o st cfg
              (uHeaders (getAuthenticatedUser cfg ev.authHeader o.decodeTok o.nowSec))).2.1 id
            = some "QUEUED" := by
          simpa [apiHandler, hopt, hc] using h
        rcases apiRoutesH_store ev o st cfg
            (uHeaders (getAuthenticatedUser cfg ev.authHeader o.decodeTok o.nowSec)) with
          hsame | ⟨r, _, hfresh, happ⟩ | hdel
        · left; rwa [hsame] at h'
        · rw [happ] at h'
          rcases hfind : findTask st id with _ | tr
          · right; rfl
          · left
            have : findTask (st ++ [(o.freshId, r)]) id = some tr := by
              rw [findTask_append, hfind]
            rw [taskStatus, this] at h'
            rw [taskStatus, hfind]
            exact h'
        · rw [hdel] at h'
          by_cases hid : id = ev.pathId.getD ""
          · rw [taskStatus, hid, findTask_filter_ne] at h'
            simp at h'
          · left
            rwa [taskStatus, findTask_filter_other st _ id hid, ← taskStatus] at h'

/-- C3 witness: the no-requeue property applied to a concrete store and
batch. -/
theorem c3_no_requeue_witness :
    taskStatus wst0 "a" = some "QUEUED" :=
  c3_no_requeue.1 wst0 [.setProcessing "b" "t1"] "a" rfl

/-- C4 counterexample: a parsed message body with an `id` but no `topic` is
named in the failure report AND causes a store write: the compensation path
writes `status = ERROR` for that id, refuting "performs no store write for
that item". -/
def wrec4 : SqsRec := { messageId := "m4", parsed := .ok { id := some "a", topic := none } }

theorem c4_counterexample :
    (processRecord wcfg0 wrec4 {}).1
        = [.setError "a" "Message must contain id and topic" "t3"]
    ∧ (workerHandler (.ok wcfg0) [(wrec4, {})]).2 = ["m4"]
    ∧ findTask (applyWrites [] (processRecord wcfg0 wrec4 {}).1) "a"
        = some { status := some "ERROR",
                 error := some (some "Message must contain id and topic"),
                 updatedAt := some "t3" } :=
  ⟨rfl, rfl, rfl⟩

/-- C4 (amended): a parsed body lacking `id` or `topic` is always named in
the failure report; no store write happens when `id` is missing, but when
`id` is present and only `topic` is missing the compensation path issues an
`ERROR` write for that id (when that write succeeds). -/
theorem c4_malformed_item (cfg : WorkerCfg) (r : SqsRec) (o : RecOracle) (m : WMsg)
    (hp : r.parsed = .ok m) (hmal : (jsTruthy m.id && jsTruthy m.topic) = false) :
    (processRecord cfg r o).2 = true
    ∧ (jsTruthy m.id = false → (processRecord cfg r o).1 = [])
    ∧ (jsTruthy m.id = true → o.errWriteOk = true →
        (processRecord cfg r o).1
          = [.setError (m.id.getD "") "Message must contain id and topic" o.tErr]) := by
  refine ⟨?_, ?_, ?_⟩
  · simp [processRecord, hp, hmal]
  · intro hid; simp [processRecord, hp, hmal, compWrites, hid]
  · intro hid herr
    have ht : jsTruthy m.topic = false := by revert hmal; simp [hid]
    simp [processRecord, hp, hid, ht, compWrites, herr]

/-- C4 witness: the amended malformed-item behaviour at a concrete record. -/
theorem c4_malformed_item_witness :
    (processRecord wcfg0 { messageId := "m5", parsed := .ok {} } {}).2 = true
    ∧ (processRecord wcfg0 { messageId := "m5", parsed := .ok {} } {}).1 = [] := by
  have h := c4_malformed_item wcfg0 { messageId := "m5", parsed := .ok {} } {} {} rfl rfl
  exact ⟨h.1, h.2.1 rfl⟩

/-! ## API-side claims -/

/-- C5: a Create request whose topic is absent, empty, or whitespace-only
after trimming gets the 422 validation response, and the handler performs no
store write and no queue publish. -/
theorem c5_create_validation (ev : ApiEvent) (o : ApiOracle) (st : Store) (cfg : ApiConfig)
    (tf : Option String)
    (hcfg : o.cfgResult = .ok cfg) (htable : jsTruthy cfg.tableName = true)
    (hm : ev.httpMethod = "POST") (hp : jsEndsWith ev.path "/tasks" = true)
    (hb : ev.parsedBody = .ok tf) (ht : jsTrim (tf.getD "") = "") :
    (apiHandler ev o st).1.statusCode = 422
    ∧ (apiHandler ev o st).1.body = .msg "Field \x27topic\x27 is required"
    ∧ (apiHandler ev o st).2.1 = st
    ∧ (apiHandler ev o st).2.2 = [] := by
  have hopt : (ev.httpMethod == "OPTIONS") = false := by rw [hm]; rfl
  have hpost : (ev.httpMethod == "POST") = true := by rw [hm]; rfl
  simp [apiHandler, apiRoutesH, hopt, hcfg, htable, hpost, hp, hb, ht, mkRes]

def ev5 : ApiEvent := { httpMethod := "POST", path := some "/tasks", parsedBody := .ok (some "   ") }

def orc5 : ApiOracle := { cfgResult := .ok { tableName := some "T" } }

/-- C5 witness: a whitespace-only topic at a concrete request. -/
theorem c5_create_validation_witness :
    (apiHandler ev5 orc5 []).1.statusCode = 422
    ∧ (apiHandler ev5 orc5 []).2.1 = ([] : Store)
    ∧ (apiHandler ev5 orc5 []).2.2 = [] := by
  have h := c5_create_validation ev5 orc5 [] { tableName := some "T" } (some "   ")
    rfl rfl rfl rfl rfl (by decide)
  exact ⟨h.1, h.2.2.1, h.2.2.2⟩

/-- C1 (amended): on a valid create whose conditional store write succeeds,
when no queue URL is configured the publish step is skipped and Create
returns 201; but when a queue URL is configured and the publish fails, the
handler returns the 500 server-error response (the created task remains
stored with status `QUEUED`) — publish failure does fail the create
response. -/
theorem c1_create_publish (ev : ApiEvent) (o : ApiOracle) (st : Store) (cfg : ApiConfig)
    (tf : Option String)
    (hcfg : o.cfgResult = .ok cfg) (htable : jsTruthy cfg.tableName = true)
    (hm : ev.httpMethod = "POST") (hp : jsEndsWith ev.path "/tasks" = true)
    (hb : ev.parsedBody = .ok tf) (ht : ¬jsTrim (tf.getD "") = "")
    (hfresh : findTask st o.freshId = none) (hput : o.putDepOk = true) :
    (jsTruthy cfg.queueUrl = false →
      (apiHandler ev o st).1.statusCode = 201
      ∧ (apiHandler ev o st).1.body = .created o.freshId (jsTrim (tf.getD "")) "QUEUED" o.nowIso
      ∧ (apiHandler ev o st).2.2 = [])
    ∧ (jsTruthy cfg.queueUrl = true → o.sqsOk = false →
      (apiHandler ev o st).1.statusCode = 500
      ∧ (apiHandler ev o st).1.body = .msgErr "Server error" (some o.sqsErrMsg)
      ∧ taskStatus (apiHandler ev o st).2.1 o.freshId = some "QUEUED") := by
  have hopt : (ev.httpMethod == "OPTIONS") = false := by rw [hm]; rfl
  have hpost : (ev.httpMethod == "POST") = true := by rw [hm]; rfl
  have hfs : (findTask st o.freshId).isSome = false := by rw [hfresh]; rfl
  constructor
  · intro hq
    simp [apiHandler, apiRoutesH, hopt, hcfg, htable, hpost, hp, hb, ht, hfs, hput, hq, mkRes]
  · intro hq hs
    refine ⟨?_, ?_, ?_⟩ <;>
      simp [apiHandler, apiRoutesH, hopt, hcfg, htable, hpost, hp, hb, ht, hfs, hput, hq, hs,
        mkRes, taskStatus, findTask_append, hfresh, findTask]

def ev1 : ApiEvent :=
  { httpMethod := "POST", path := some "/tasks", parsedBody := .ok (some "Photosynthesis") }

def orc1 : ApiOracle :=
  { cfgResult := .ok { tableName := some "T", queueUrl := some "Q" }, sqsOk := false }

/-- C1 counterexample: with a queue URL configured and the publish failing
after a successful conditional write, the handler returns 500 — not the
claimed 201 created-task response (the task is nevertheless stored as
`QUEUED`). -/
theorem c1_counterexample :
    (apiHandler ev1 orc1 []).1.statusCode = 500
    ∧ ¬(apiHandler ev1 orc1 []).1.statusCode = 201
    ∧ taskStatus (apiHandler ev1 orc1 []).2.1 "id-1" = some "QUEUED" := by
  exact ⟨rfl, by decide, rfl⟩

/-- C1 witness: the amended behaviour at a concrete request without a queue
URL (publish skipped, 201 returned). -/
theorem c1_create_publish_witness :
    (apiHandler ev1 { cfgResult := .ok { tableName := some "T" } } []).1.statusCode = 201
    ∧ (apiHandler ev1 { cfgResult := .ok { tableName := some "T" } } []).2.2 = [] := by
  have h := (c1_create_publish ev1 { cfgResult := .ok { tableName := some "T" } } []
    { tableName := some "T" } (some "Photosynthesis")
    rfl rfl rfl rfl rfl (by decide) rfl rfl).1 rfl
  exact ⟨h.1, h.2.2⟩

/-- C10: on a successful Create with the queue configured, the stored task
and the published work item are coherent: same id, same trimmed topic,
`requestedAt` equal to the task's `createdAt`, and the fresh task has
`updatedAt = createdAt`, `researchMd = ""` and `error` null. -/
theorem c10_create_coherence (ev : ApiEvent) (o : ApiOracle) (st : Store) (cfg : ApiConfig)
    (tf : Option String)
    (hcfg : o.cfgResult = .ok cfg) (htable : jsTruthy cfg.tableName = true)
    (hm : ev.httpMethod = "POST") (hp : jsEndsWith ev.path "/tasks" = true)
    (hb : ev.parsedBody = .ok tf) (ht : ¬jsTrim (tf.getD "") = "")
    (hfresh : findTask st o.freshId = none) (hput : o.putDepOk = true)
    (hq : jsTruthy cfg.queueUrl = true) (hs : o.sqsOk = true) :
    (apiHandler ev o st).2.2
      = [{ id := o.freshId, topic := jsTrim (tf.getD ""), requestedAt := o.nowIso,
           taskType := "RESEARCH_SUMMARY_V1" }]
    ∧ findTask (apiHandler ev o st).2.1 o.freshId
      = some { pk := some "TASK", topic := some (jsTrim (tf.getD "")), status := some "QUEUED",
               createdAt := some o.nowIso, updatedAt := some o.nowIso, researchMd := some "",
               error := some none } := by
  have hopt : (ev.httpMethod == "OPTIONS") = false := by rw [hm]; rfl
  have hpost : (ev.httpMethod == "POST") = true := by rw [hm]; rfl
  have hfs : (findTask st o.freshId).isSome = false := by rw [hfresh]; rfl
  constructor <;>
    simp [apiHandler, apiRoutesH, hopt, hcfg, htable, hpost, hp, hb, ht, hfs, hput, hq, hs,
      findTask_append, hfresh, findTask]

def orc10 : ApiOracle := { cfgResult := .ok { tableName := some "T", queueUrl := some "Q" } }

/-- C10 witness: the coherence facts at a concrete successful create. -/
theorem c10_create_coherence_witness :
    (apiHandler ev1 orc10 []).2.2
      = [{ id := "id-1", topic := "Photosynthesis", requestedAt := "t0",
           taskType := "RESEARCH_SUMMARY_V1" }] := by
  have h := c10_create_coherence ev1 orc10 [] { tableName := some "T", queueUrl := some "Q" }
    (some "Photosynthesis") rfl rfl rfl rfl rfl (by decide) rfl rfl rfl rfl
  exact h.1

/-! ## The list limit (C6) -/

theorem storeQuery_length (st : Store) (lim : Nat) (sk : Option JKey) :
    (storeQuery st lim sk).1.length ≤ lim := by
  simp only [storeQuery, List.length_map, List.length_take]
  omega

/-- Every response body's item list is empty unless the invocation reached a
successful list query, in which case it is a query page for the request's
used limit. -/
theorem apiRoutesH_items_shape (ev : ApiEvent) (o : ApiOracle) (st : Store) (cfg : ApiConfig)
    (uh : List (String × Option String)) :
    respItems (apiRoutesH ev o st cfg uh).1.body = []
    ∨ ∃ n sk, usedLimit (ev.qs.getD {}).limit = some n
        ∧ respItems (apiRoutesH ev o st cfg uh).1.body = (storeQuery st n.toNat sk).1 := by
  simp only [apiRoutesH]
  repeat' split
  all_goals
    first
      | (left; rfl)
      | (right; exact ⟨_, _, by assumption, rfl⟩)

/-- C6: the limit actually used by the list route defaults to 25 when the
query parameter is absent, never exceeds 100, and the response contains at
most that many items. -/
theorem c6_list_limit :
    usedLimit none = some 25
    ∧ (∀ (q : Option String) (n : Int), usedLimit q = some n → n ≤ 100)
    ∧ (∀ (ev : ApiEvent) (o : ApiOracle) (st : Store) (n : Int),
        usedLimit (ev.qs.getD {}).limit = some n →
        (respItems (apiHandler ev o st).1.body).length ≤ n.toNat) := by
  refine ⟨rfl, ?_, ?_⟩
  · intro q n h
    cases q with
    | none =>
      simp [usedLimit] at h
      omega
    | some s =>
      by_cases hs : s = ""
      · simp [usedLimit, hs] at h
        omega
      · simp [usedLimit, hs] at h
        rcases h with ⟨m, _, hmin⟩
        omega
  · intro ev o st n h
    by_cases hopt : (ev.httpMethod == "OPTIONS") = true
    · simp [apiHandler, hopt, respItems]
    · rcases hc : o.cfgResult with ec | cfg
      · simp [apiHandler, hopt, hc, respItems, mkRes]
      · have hred : (apiHandler ev o st).1
            = (apiRoutesH ev o st cfg
                (uHeaders (getAuthenticatedUser cfg ev.authHeader o.decodeTok o.nowSec))).1 := by
          simp [apiHandler, hopt, hc]
        rw [hred]
        rcases apiRoutesH_items_shape ev o st cfg
            (uHeaders (getAuthenticatedUser cfg ev.authHeader o.decodeTok o.nowSec)) with
          he | ⟨n', sk, hn', hitems⟩
        · simp [he]
        · rw [hitems]
          have hnn : n' = n := by
            rw [h] at hn'
            exact (Option.some.inj hn').symm
          subst hnn
          exact storeQuery_length st n'.toNat sk

def ev6 : ApiEvent :=
  { httpMethod := "GET", path := some "/tasks", qs := some { limit := some "7" } }

/-- C6 witness: limit facts at a concrete list request. -/
theorem c6_list_limit_witness :
    (7 : Int) ≤ 100
    ∧ (respItems (apiHandler ev6 orc5 wst0).1.body).length ≤ (7 : Int).toNat :=
  ⟨c6_list_limit.2.1 (some "7") 7 rfl, c6_list_limit.2.2 ev6 orc5 wst0 7 rfl⟩

/-! ## Identity extraction (C8, C9) -/

def cfg8 : ApiConfig :=
  { tableName := some "T", userPool := some "us-east-1_Pool1", clientId := some "client1" }

def payload8 : JwtPayload :=
  { exp := some 1000, iss := some (issuerUrl "us-east-1_Pool1"), aud := some "client1",
    token_use := some "id", sub := some "user-1" }

/-- C8 counterexample: a token whose `exp` claim equals the current time is
accepted (the code tests `payload.exp < now`, strictly), refuting the claim
that `exp` at the current time yields nothing. -/
theorem c8_counterexample :
    getAuthenticatedUser cfg8 (some "Bearer tok") (fun _ => .ok payload8) 1000 ≠ none := by
  decide

/-- C8 (amended): the extractor returns nothing whenever the decoded payload
has no `exp` claim (or a JS-falsy `exp = 0`) or an `exp` strictly before the
current time. -/
theorem c8_expired_token_rejected (cfg : ApiConfig) (ah : Option String)
    (dec : String → Except String JwtPayload) (nowSec : Int)
    (h : ∀ t p, dec t = .ok p →
        p.exp = none ∨ p.exp = some 0 ∨ ∃ e, p.exp = some e ∧ e < nowSec) :
    getAuthenticatedUser cfg ah dec nowSec = none := by
  by_cases hcfg : (jsTruthy cfg.userPool && jsTruthy cfg.clientId) = true
  · cases ah with
    | none => simp [getAuthenticatedUser, hcfg]
    | some s =>
      by_cases htok : stripBearer s = ""
      · simp [getAuthenticatedUser, hcfg, htok]
      · rcases hd : dec (stripBearer s) with er | p
        · simp [getAuthenticatedUser, hcfg, htok, hd]
        · have hex : isTokenExpired p nowSec = true := by
            rcases h _ _ hd with h0 | h0 | ⟨e, he, hlt⟩
            · simp [isTokenExpired, h0]
            · simp [isTokenExpired, h0]
            · by_cases he0 : e = 0
              · simp [isTokenExpired, he, he0]
              · simp [isTokenExpired, he, he0, hlt]
          simp [getAuthenticatedUser, hcfg, htok, hd, hex]
  · simp [getAuthenticatedUser, hcfg]

/-- C8 witness: a concretely expired token yields nothing. -/
theorem c8_expired_token_rejected_witness :
    getAuthenticatedUser cfg8 (some "Bearer tok") (fun _ => .ok { exp := some 5 }) 10 = none :=
  c8_expired_token_rejected cfg8 (some "Bearer tok") (fun _ => .ok { exp := some 5 }) 10
    (by
      intro t p hp
      cases hp
      right; right
      exact ⟨5, rfl, by omega⟩)

theorem apiRoutesH_auth_irrel (ev : ApiEvent) (a : Option String) (o : ApiOracle) (st : Store)
    (cfg : ApiConfig) (uh : List (String × Option String)) :
    apiRoutesH { ev with authHeader := a } o st cfg uh = apiRoutesH ev o st cfg uh := rfl

theorem apiRoutesH_uh (ev : ApiEvent) (o : ApiOracle) (st : Store) (cfg : ApiConfig)
    (u1 u2 : Option AuthUser) :
    ((apiRoutesH ev o st cfg (uHeaders u1)).1.statusCode
        = (apiRoutesH ev o st cfg (uHeaders u2)).1.statusCode)
    ∧ ((apiRoutesH ev o st cfg (uHeaders u1)).1.body
        = (apiRoutesH ev o st cfg (uHeaders u2)).1.body)
    ∧ (stripUid (apiRoutesH ev o st cfg (uHeaders u1)).1.headers
        = stripUid (apiRoutesH ev o st cfg (uHeaders u2)).1.headers) := by
  have hu : ∀ u : Option AuthUser,
      stripUid (corsHeaders ++ uHeaders u) = stripUid corsHeaders := by
    intro u
    cases u with
    | none => simp [uHeaders]
    | some u => simp [stripUid, uHeaders, List.filter_append, corsHeaders]
  simp only [apiRoutesH]
  repeat' split
  all_goals
    first
      | exact ⟨rfl, rfl, rfl⟩
      | exact ⟨rfl, rfl, by simp only [mkRes]; rw [hu, hu]⟩

/-- C9: identity extraction never affects the outcome of a request — two
requests identical except for their Authorization header get the same status
code and the same body, and their headers agree once the advisory
`X-User-ID` header is removed. -/
theorem c9_auth_advisory (ev : ApiEvent) (o : ApiOracle) (st : Store) (a1 a2 : Option String) :
    ((apiHandler { ev with authHeader := a1 } o st).1.statusCode
        = (apiHandler { ev with authHeader := a2 } o st).1.statusCode)
    ∧ ((apiHandler { ev with authHeader := a1 } o st).1.body
        = (apiHandler { ev with authHeader := a2 } o st).1.body)
    ∧ (stripUid (apiHandler { ev with authHeader := a1 } o st).1.headers
        = stripUid (apiHandler { ev with authHeader := a2 } o st).1.headers) := by
  by_cases hopt : (ev.httpMethod == "OPTIONS") = true
  · simp [apiHandler, hopt]
  · rcases hc : o.cfgResult with ec | cfg
    · simp [apiHandler, hopt, hc]
    · have hred : ∀ a : Option String,
          apiHandler { ev with authHeader := a } o st
            = apiRoutesH ev o st cfg
                (uHeaders (getAuthenticatedUser cfg a o.decodeTok o.nowSec)) := by
        intro a
        simp [apiHandler, hopt, hc, apiRoutesH_auth_irrel]
      rw [hred a1, hred a2]
      exact apiRoutesH_uh ev o st cfg _ _

/-! ## The cursor codec round-trip (C7) -/

theorem b64dc_c_fin : ∀ n : Fin 64, b64dc (b64c n.val) = some n.val := by decide

theorem b64c_ne61_fin : ∀ n : Fin 64, b64c n.val ≠ 61 := by decide

theorem b64dc_c (n : Nat) (h : n < 64) : b64dc (b64c n) = some n := b64dc_c_fin ⟨n, h⟩

theorem b64c_ne61 (n : Nat) (h : n < 64) : b64c n ≠ 61 := b64c_ne61_fin ⟨n, h⟩

theorem b64_roundtrip : ∀ l : List Nat, BWF l → b64decode (b64encode l) = some l
  | [], _ => rfl
  | [a], h => by
    have ha : a < 256 := h a (by simp)
    have d1 := b64dc_c (a / 4) (by omega)
    have d2 := b64dc_c (a % 4 * 16) (by omega)
    simp [b64encode, b64decode, d1, d2]
    omega
  | [a, b], h => by
    have ha : a < 256 := h a (by simp)
    have hb : b < 256 := h b (by simp)
    have d1 := b64dc_c (a / 4) (by omega)
    have d2 := b64dc_c (a % 4 * 16 + b / 16) (by omega)
    have d3 := b64dc_c (b % 16 * 4) (by omega)
    have n3 := b64c_ne61 (b % 16 * 4) (by omega)
    simp [b64encode, b64decode, d1, d2, d3, n3]
    omega
  | a :: b :: c :: rest, h => by
    have ha : a < 256 := h a (by simp)
    have hb : b < 256 := h b (by simp)
    have hc : c < 256 := h c (by simp)
    have ih := b64_roundtrip rest (fun x hx => h x (by simp [hx]))
    have d1 := b64dc_c (a / 4) (by omega)
    have d2 := b64dc_c (a % 4 * 16 + b / 16) (by omega)
    have d3 := b64dc_c (b % 16 * 4 + c / 64) (by omega)
    have d4 := b64dc_c (c % 64) (by omega)
    have n3 := b64c_ne61 (b % 16 * 4 + c / 64) (by omega)
    have n4 := b64c_ne61 (c % 64) (by omega)
    simp [b64encode, b64decode, d1, d2, d3, d4, n3, n4, ih]
    omega

theorem hexVal_hd_fin : ∀ n : Fin 16, hexVal (hexDigitByte n.val) = some n.val := by decide

theorem hexVal_hd (n : Nat) (h : n < 16) : hexVal (hexDigitByte n) = some n :=
  hexVal_hd_fin ⟨n, h⟩

theorem hexDigitByte_lt (n : Nat) (h : n < 16) : hexDigitByte n < 256 := by
  unfold hexDigitByte
  split <;> omega

/-- Escaping a byte string and parsing it back (with the closing quote and a
tail appended) recovers the byte string and the tail. -/
theorem parseJStr_esc : ∀ (s rest : List Nat), BWF s →
    parseJStr (escBytes s ++ (34 :: rest)) = some (s, rest)
  | [], rest, _ => by
    show parseJStr (34 :: rest) = some ([], rest)
    rw [parseJStr.eq_def]
    simp
  | b :: s, rest, h => by
    have hb : b < 256 := h b (by simp)
    have ih := parseJStr_esc s rest (fun x hx => h x (by simp [hx]))
    by_cases h34 : b = 34
    · subst h34
      simp only [escBytes, escByte, if_pos rfl, List.cons_append, List.append_assoc]
      rw [parseJStr.eq_def]
      simp [ih]
    · by_cases h92 : b = 92
      · subst h92
        simp only [escBytes, escByte]
        norm_num
        rw [parseJStr.eq_def]
        simp [ih]
      · by_cases h8 : b = 8
        · subst h8
          simp only [escBytes, escByte]
          norm_num
          rw [parseJStr.eq_def]
          simp [ih]
        · by_cases h9 : b = 9
          · subst h9
            simp only [escBytes, escByte]
            norm_num
            rw [parseJStr.eq_def]
            simp [ih]
          · by_cases h10 : b = 10
            · subst h10
              simp only [escBytes, escByte]
              norm_num
              rw [parseJStr.eq_def]
              simp [ih]
            · by_cases h12 : b = 12
              · subst h12
                simp only [escBytes, escByte]
                norm_num
                rw [parseJStr.eq_def]
                simp [ih]
              · by_cases h13 : b = 13
                · subst h13
                  simp only [escBytes, escByte]
                  norm_num
                  rw [parseJStr.eq_def]
                  simp [ih]
                · by_cases hctl : b < 32
                  · have e1 := hexVal_hd (b / 16) (by omega)
                    have e2 := hexVal_hd (b % 16) (by omega)
                    have hesc : escByte b
                        = [92, 117, 48, 48, hexDigitByte (b / 16), hexDigitByte (b % 16)] := by
                      simp [escByte, h34, h92, h8, h9, h10, h12, h13, hctl]
                    have h48 : hexVal 48 = some 0 := rfl
                    simp only [escBytes, hesc, List.cons_append, List.append_assoc]
                    rw [parseJStr.eq_def]
                    simp [e1, e2, h48, ih]
                    omega
                  · have hesc : escByte b = [b] := by
                      simp [escByte, h34, h92, h8, h9, h10, h12, h13, hctl]
                    simp only [escBytes, hesc, List.cons_append, List.append_assoc]
                    rw [parseJStr.eq_def]
                    simp [h34, h92, ih]

theorem strFields_len : ∀ k : JKey, k.length ≤ (strFields k).length
  | [] => by simp [strFields]
  | [kv] => by simp [strFields, strJPair]
  | kv :: kv2 :: krest => by
    have ih := strFields_len (kv2 :: krest)
    have hsf : strFields (kv :: kv2 :: krest)
        = strJPair kv ++ (44 :: strFields (kv2 :: krest)) := by
      rw [strFields.eq_def]
    rw [hsf]
    simp only [strJPair, List.length_append, List.length_cons] at ih ⊢
    omega

theorem parseFields_str : ∀ (k : JKey) (fuel : Nat) (rest : List Nat),
    k ≠ [] → k.length ≤ fuel → KeyWF k →
    parseFields fuel (strFields k ++ (125 :: rest)) = some (k, rest)
  | [], _, _, hne, _, _ => absurd rfl hne
  | [kv], fuel, rest, _, hlen, hk => by
    cases fuel with
    | zero => simp at hlen
    | succ f =>
      have hw := hk kv (by simp)
      have h1 := parseJStr_esc kv.1 (58 :: 34 :: (escBytes kv.2 ++ (34 :: 125 :: rest))) hw.1
      have h2 := parseJStr_esc kv.2 (125 :: rest) hw.2
      show parseFields (f + 1) (strJPair kv ++ (125 :: rest)) = some ([kv], rest)
      simp only [strJPair, List.cons_append, List.append_assoc, List.singleton_append]
      rw [parseFields.eq_def]
      simp [h1, h2]
  | kv :: kv2 :: krest, fuel, rest, _, hlen, hk => by
    cases fuel with
    | zero => simp at hlen
    | succ f =>
      have hw := hk kv (by simp)
      have hsf : strFields (kv :: kv2 :: krest)
          = strJPair kv ++ (44 :: strFields (kv2 :: krest)) := by
        rw [strFields.eq_def]
      have ih := parseFields_str (kv2 :: krest) f rest (by simp)
        (by simp at hlen ⊢; omega) (fun x hx => hk x (List.mem_cons_of_mem _ hx))
      have h1 := parseJStr_esc kv.1
        (58 :: 34 :: (escBytes kv.2 ++ (34 :: 44 :: (strFields (kv2 :: krest) ++ (125 :: rest)))))
        hw.1
      have h2 := parseJStr_esc kv.2
        (44 :: (strFields (kv2 :: krest) ++ (125 :: rest))) hw.2
      rw [hsf]
      show parseFields (f + 1)
          (strJPair kv ++ (44 :: strFields (kv2 :: krest)) ++ (125 :: rest)) = some _
      simp only [strJPair, List.cons_append, List.append_assoc, List.singleton_append]
      rw [parseFields.eq_def]
      simp [h1, h2, ih]

theorem strFields_ne_nil (kv : ByteStr × ByteStr) (rest : JKey) :
    strFields (kv :: rest) ≠ [] := by
  intro hcon
  have h := strFields_len (kv :: rest)
  rw [hcon] at h
  simp at h

theorem parseKey_stringify (k : JKey) (hk : KeyWF k) :
    parseKeyBytes (stringifyKey k) = some k := by
  cases k with
  | nil => rfl
  | cons kv rest =>
    have hcond : ¬(strFields (kv :: rest) ++ [125] = [125]) := by
      intro hcon
      apply strFields_ne_nil kv rest
      cases hsf : strFields (kv :: rest) with
      | nil => rfl
      | cons a t =>
        rw [hsf] at hcon
        simp at hcon
    have hpf := parseFields_str (kv :: rest) (strFields (kv :: rest) ++ [125]).length []
      (by simp)
      (by
        have h := strFields_len (kv :: rest)
        simp only [List.length_append, List.length_cons] at h ⊢
        omega)
      hk
    show parseKeyBytes (123 :: (strFields (kv :: rest) ++ [125])) = some (kv :: rest)
    rw [parseKeyBytes.eq_def]
    simp only [if_neg hcond]
    rw [hpf]

theorem hexDigitByte_wf (n : Nat) (h : n < 16) : hexDigitByte n < 256 := by
  unfold hexDigitByte
  split <;> omega

theorem escByte_wf (b : Nat) (h : b < 256) : BWF (escByte b) := by
  intro x hx
  have hd1 : hexDigitByte (b / 16) < 256 := hexDigitByte_wf _ (by omega)
  have hd2 : hexDigitByte (b % 16) < 256 := hexDigitByte_wf _ (by omega)
  unfold escByte at hx
  split_ifs at hx <;> simp at hx <;> omega

theorem escBytes_wf (s : List Nat) (h : BWF s) : BWF (escBytes s) := by
  induction s with
  | nil => intro x hx; simp [escBytes] at hx
  | cons b s ih =>
    intro x hx
    simp only [escBytes] at hx
    rcases List.mem_append.mp hx with hx | hx
    · exact escByte_wf b (h b (by simp)) x hx
    · exact ih (fun y hy => h y (by simp [hy])) x hx

theorem strJPair_wf (kv : ByteStr × ByteStr) (h1 : BWF kv.1) (h2 : BWF kv.2) :
    BWF (strJPair kv) := by
  intro x hx
  have hA := escBytes_wf kv.1 h1 x
  have hB := escBytes_wf kv.2 h2 x
  simp only [strJPair, List.mem_cons, List.mem_append, List.mem_singleton] at hx
  rcases hx with rfl | hx | rfl | rfl | rfl | hx | rfl | h0
  all_goals first | omega | (exact hA hx) | (exact hB hx) | simp at h0

theorem strFields_wf : ∀ k : JKey, KeyWF k → BWF (strFields k)
  | [], _ => by intro x hx; simp [strFields] at hx
  | [kv], hk => by
    have hw := hk kv (by simp)
    simpa [strFields] using strJPair_wf kv hw.1 hw.2
  | kv :: kv2 :: krest, hk => by
    have hw := hk kv (by simp)
    have ih := strFields_wf (kv2 :: krest) (fun x hx => hk x (List.mem_cons_of_mem _ hx))
    have hsf : strFields (kv :: kv2 :: krest)
        = strJPair kv ++ (44 :: strFields (kv2 :: krest)) := by
      rw [strFields.eq_def]
    rw [hsf]
    intro x hx
    rcases List.mem_append.mp hx with hx | hx
    · exact strJPair_wf kv hw.1 hw.2 x hx
    · rcases List.mem_cons.mp hx with rfl | hx
      · omega
      · exact ih x hx

theorem stringifyKey_wf (k : JKey) (hk : KeyWF k) : BWF (stringifyKey k) := by
  intro x hx
  simp only [stringifyKey, List.mem_cons, List.mem_append] at hx
  rcases hx with rfl | hx
  · omega
  · rcases hx with hx | hx
    · exact strFields_wf k hk x hx
    · simp at hx; omega

theorem utf8Bytes_wf (s : String) : BWF (utf8Bytes s) := by
  intro b hb
  simp only [utf8Bytes, List.mem_map] at hb
  rcases hb with ⟨u, _, rfl⟩
  exact u.toNat_lt

theorem taskKey_wf (e : String × TaskRec) : KeyWF (taskKey e) := by
  intro kv hkv
  simp only [taskKey, List.mem_cons] at hkv
  rcases hkv with rfl | rfl | rfl | h
  · exact ⟨utf8Bytes_wf _, utf8Bytes_wf _⟩
  · exact ⟨utf8Bytes_wf _, utf8Bytes_wf _⟩
  · exact ⟨utf8Bytes_wf _, utf8Bytes_wf _⟩
  · simp at h

theorem storeQuery_lek_wf (st : Store) (lim : Nat) (sk : Option JKey) (k : JKey)
    (h : (storeQuery st lim sk).2 = some k) : KeyWF k := by
  simp only [storeQuery] at h
  split at h
  · rcases Option.map_eq_some'.mp h with ⟨e, _, rfl⟩
    exact taskKey_wf e
  · exact absurd h (by simp)

/-- C7: the pagination cursor round-trips the store's continuation key —
base64-of-JSON encoding followed by decoding yields exactly the original
key for every key the store query can return, and when the query reports no
further pages the handler's returned cursor is null. -/
theorem c7_cursor_roundtrip :
    (∀ k : JKey, KeyWF k → decodeCursor (encodeCursor k) = some k)
    ∧ (∀ (st : Store) (lim : Nat) (sk : Option JKey) (k : JKey),
        (storeQuery st lim sk).2 = some k → KeyWF k)
    ∧ lekToCursor none = none := by
  refine ⟨?_, storeQuery_lek_wf, rfl⟩
  intro k hk
  unfold decodeCursor encodeCursor
  rw [b64_roundtrip _ (stringifyKey_wf k hk)]
  simpa using parseKey_stringify k hk

/-- C7 witness: the round trip evaluated at a concrete continuation key. -/
theorem c7_cursor_roundtrip_witness :
    decodeCursor (encodeCursor (taskKey ("a", { createdAt := some "c" }))) =
      some (taskKey ("a", { createdAt := some "c" })) :=
  c7_cursor_roundtrip.1 (taskKey ("a", { createdAt := some "c" }))
    (taskKey_wf ("a", { createdAt := some "c" }))

end StudyNotes
